import Mathlib

/-
Verification of the InteractiveMap frontend core.

Shallow embedding of the viewport engine (MapView.js), the color
resolution chain (PoiLayer / PoiModal), the layer visibility set
(MapView.loadMapData / PoiLayer.isPoiVisible), the POI grouping
(PoiList.js) and the sharing UI gating (ShareModal.js / MapView.js).

Pixel coordinates, zoom factors and pan offsets are modelled as
rationals; JS strings are modelled as String, with the empty string
standing for an absent / falsy value exactly as the code tests
truthiness with plain `if (s)`.
-/

namespace InteractiveMap

/-- Zoom constants from MapView.js (the PoiLayer revision): MIN_ZOOM. -/
def MIN_ZOOM : ℚ := 1

/-- Zoom constants from MapView.js: MAX_ZOOM. -/
def MAX_ZOOM : ℚ := 25

/-- Zoom constants from MapView.js: ZOOM_STEP. -/
def ZOOM_STEP : ℚ := 1/4

/-- A 2D pixel vector (pan offsets, pointer positions). -/
structure Vec2 where
  x : ℚ
  y : ℚ
deriving DecidableEq, Repr

/-- A DOMRect as returned by getBoundingClientRect, reduced to the
fields the handlers read. -/
structure Rect where
  left : ℚ
  top : ℚ
  width : ℚ
  height : ℚ
deriving DecidableEq, Repr

/-- Math.min on rationals (NaN is outside the model). -/
def jsMin (a b : ℚ) : ℚ := if a ≤ b then a else b

/-- Math.max on rationals (NaN is outside the model). -/
def jsMax (a b : ℚ) : ℚ := if a ≤ b then b else a

theorem jsMin_eq_min (a b : ℚ) : jsMin a b = min a b := by
  simp [jsMin, min_def]

theorem jsMax_eq_max (a b : ℚ) : jsMax a b = max a b := by
  simp [jsMax, max_def]

/-- MapView.handleWheel: mouse anchored zoom.  Computes the mouse
position relative to the container, steps the zoom by ZOOM_STEP
(direction given by the sign of deltaY), clamps to [MIN_ZOOM, MAX_ZOOM]
and, when the zoom changed, re-anchors the pan with
newPan = pan * zoomRatio + point * (1 - zoomRatio).
Returns the new (zoom, pan) pair; when the clamped zoom equals the old
zoom the state is unchanged. -/
def handleWheel (zoom : ℚ) (pan : Vec2) (rect : Rect)
    (clientX clientY deltaY : ℚ) : ℚ × Vec2 :=
  let mouseX := (clientX - rect.left) / rect.width
  let mouseY := (clientY - rect.top) / rect.height
  let delta := if 0 < deltaY then -ZOOM_STEP else ZOOM_STEP
  let newZoom := jsMin MAX_ZOOM (jsMax MIN_ZOOM (zoom + delta))
  if newZoom ≠ zoom then
    let zr := newZoom / zoom
    let pointX := (mouseX - 1/2) * rect.width
    let pointY := (mouseY - 1/2) * rect.height
    let newPanX := pan.x * zr + pointX * (1 - zr)
    let newPanY := pan.y * zr + pointY * (1 - zr)
    (newZoom, ⟨newPanX, newPanY⟩)
  else
    (zoom, pan)

/-- The content coordinate (horizontal) sitting under a pointer
position, obtained by inverting the CSS transform
translate(pan) scale(zoom) with transform-origin at the container
center: screenOffsetFromCenter = pan + zoom * contentOffset. -/
def contentCoordX (zoom : ℚ) (pan : Vec2) (rect : Rect) (clientX : ℚ) : ℚ :=
  ((clientX - rect.left - rect.width / 2) - pan.x) / zoom

/-- The content coordinate (vertical) under a pointer position. -/
def contentCoordY (zoom : ℚ) (pan : Vec2) (rect : Rect) (clientY : ℚ) : ℚ :=
  ((clientY - rect.top - rect.height / 2) - pan.y) / zoom

theorem clamped_zoom_ge_one (z : ℚ) : 1 ≤ jsMin MAX_ZOOM (jsMax MIN_ZOOM z) := by
  rw [jsMin_eq_min, jsMax_eq_max]
  unfold MAX_ZOOM MIN_ZOOM
  exact le_min (by norm_num) (le_max_left _ _)

/-- C2: for every zoom in [MIN_ZOOM, MAX_ZOOM] and every pointer
position, when handleWheel changes the zoom it sets the new pan to
pan * zoomRatio + point * (1 - zoomRatio) with
zoomRatio = newZoom / zoom and point = pointerPos - viewportCenter, and
the content coordinate under the pointer is unchanged exactly (hence in
particular within 1px). -/
theorem c2_anchored_zoom (zoom : ℚ) (pan : Vec2) (rect : Rect)
    (clientX clientY deltaY : ℚ)
    (hz : 1 ≤ zoom) (hzM : zoom ≤ MAX_ZOOM)
    (hw : 0 < rect.width) (hh : 0 < rect.height)
    (hchanged : (handleWheel zoom pan rect clientX clientY deltaY).1 ≠ zoom) :
    (handleWheel zoom pan rect clientX clientY deltaY).2.x
        = pan.x * ((handleWheel zoom pan rect clientX clientY deltaY).1 / zoom)
          + (clientX - rect.left - rect.width / 2)
            * (1 - (handleWheel zoom pan rect clientX clientY deltaY).1 / zoom)
      ∧ (handleWheel zoom pan rect clientX clientY deltaY).2.y
        = pan.y * ((handleWheel zoom pan rect clientX clientY deltaY).1 / zoom)
          + (clientY - rect.top - rect.height / 2)
            * (1 - (handleWheel zoom pan rect clientX clientY deltaY).1 / zoom)
      ∧ contentCoordX (handleWheel zoom pan rect clientX clientY deltaY).1
          (handleWheel zoom pan rect clientX clientY deltaY).2 rect clientX
        = contentCoordX zoom pan rect clientX
      ∧ contentCoordY (handleWheel zoom pan rect clientX clientY deltaY).1
          (handleWheel zoom pan rect clientX clientY deltaY).2 rect clientY
        = contentCoordY zoom pan rect clientY
      ∧ |contentCoordX (handleWheel zoom pan rect clientX clientY deltaY).1
            (handleWheel zoom pan rect clientX clientY deltaY).2 rect clientX
          - contentCoordX zoom pan rect clientX| < 1
      ∧ |contentCoordY (handleWheel zoom pan rect clientX clientY deltaY).1
            (handleWheel zoom pan rect clientX clientY deltaY).2 rect clientY
          - contentCoordY zoom pan rect clientY| < 1 := by
  have hz0 : zoom ≠ 0 := by positivity
  set delta := if 0 < deltaY then -ZOOM_STEP else ZOOM_STEP with hdelta
  set nz := jsMin MAX_ZOOM (jsMax MIN_ZOOM (zoom + delta)) with hnz
  have hnz1 : 1 ≤ nz := clamped_zoom_ge_one _
  have hnz0 : nz ≠ 0 := by positivity
  have hne : nz ≠ zoom := by
    intro h
    apply hchanged
    simp only [handleWheel, ← hdelta, ← hnz, h]
    simp
  have hres : handleWheel zoom pan rect clientX clientY deltaY =
      (nz, ⟨pan.x * (nz / zoom)
              + ((clientX - rect.left) / rect.width - 1/2) * rect.width * (1 - nz / zoom),
            pan.y * (nz / zoom)
              + ((clientY - rect.top) / rect.height - 1/2) * rect.height * (1 - nz / zoom)⟩) := by
    simp only [handleWheel, ← hdelta, ← hnz, if_pos hne]
  rw [hres]
  have hptX : ((clientX - rect.left) / rect.width - 1/2) * rect.width
      = clientX - rect.left - rect.width / 2 := by
    field_simp
    ring
  have hptY : ((clientY - rect.top) / rect.height - 1/2) * rect.height
      = clientY - rect.top - rect.height / 2 := by
    field_simp
    ring
  have hcx : contentCoordX nz
      ⟨pan.x * (nz / zoom)
          + ((clientX - rect.left) / rect.width - 1/2) * rect.width * (1 - nz / zoom),
        pan.y * (nz / zoom)
          + ((clientY - rect.top) / rect.height - 1/2) * rect.height * (1 - nz / zoom)⟩
      rect clientX = contentCoordX zoom pan rect clientX := by
    unfold contentCoordX
    rw [hptX]
    field_simp
    ring
  have hcy : contentCoordY nz
      ⟨pan.x * (nz / zoom)
          + ((clientX - rect.left) / rect.width - 1/2) * rect.width * (1 - nz / zoom),
        pan.y * (nz / zoom)
          + ((clientY - rect.top) / rect.height - 1/2) * rect.height * (1 - nz / zoom)⟩
      rect clientY = contentCoordY zoom pan rect clientY := by
    unfold contentCoordY
    rw [hptY]
    field_simp
    ring
  refine ⟨by rw [hptX], by rw [hptY], hcx, hcy, ?_, ?_⟩
  · rw [hcx, sub_self, abs_zero]
    norm_num
  · rw [hcy, sub_self, abs_zero]
    norm_num

/-- Witness for c2_anchored_zoom at zoom 1, a 100x100 container and a
wheel-up event at pointer (75, 25). -/
theorem c2_anchored_zoom_witness :
    (1:ℚ) ≤ 1 ∧ (1:ℚ) ≤ MAX_ZOOM ∧ (0:ℚ) < 100 ∧
      (handleWheel 1 ⟨0, 0⟩ ⟨0, 0, 100, 100⟩ 75 25 (-1)).1 ≠ 1 ∧
      contentCoordX (handleWheel 1 ⟨0, 0⟩ ⟨0, 0, 100, 100⟩ 75 25 (-1)).1
          (handleWheel 1 ⟨0, 0⟩ ⟨0, 0, 100, 100⟩ 75 25 (-1)).2 ⟨0, 0, 100, 100⟩ 75
        = contentCoordX 1 ⟨0, 0⟩ ⟨0, 0, 100, 100⟩ 75 := by
  have h1 : (handleWheel 1 ⟨0, 0⟩ ⟨0, 0, 100, 100⟩ 75 25 (-1)).1 ≠ 1 := by
    norm_num [handleWheel, jsMin, jsMax, ZOOM_STEP, MAX_ZOOM, MIN_ZOOM]
  refine ⟨le_refl _, by unfold MAX_ZOOM; norm_num, by norm_num, h1, ?_⟩
  exact (c2_anchored_zoom 1 ⟨0, 0⟩ ⟨0, 0, 100, 100⟩ 75 25 (-1)
    (le_refl _) (by unfold MAX_ZOOM; norm_num) (by norm_num) (by norm_num) h1).2.2.1

/-- The per-axis pan travel limit from MapView.handleMouseMove:
maxPan = ((zoom - 1) / 2) * Math.max(rect.width, rect.height). -/
def maxPan (zoom : ℚ) (rect : Rect) : ℚ :=
  ((zoom - 1) / 2) * jsMax rect.width rect.height

/-- MapView.handleMouseMove: while panning, the candidate pan is
clientPos - panStart, clamped on each axis to [-maxPan, maxPan];
otherwise the pan is unchanged. -/
def handleMouseMove (isPanning : Bool) (panStart : Vec2) (zoom : ℚ)
    (pan : Vec2) (rect : Rect) (clientX clientY : ℚ) : Vec2 :=
  if isPanning then
    let newPanX := clientX - panStart.x
    let newPanY := clientY - panStart.y
    let m := maxPan zoom rect
    ⟨jsMax (-m) (jsMin m newPanX), jsMax (-m) (jsMin m newPanY)⟩
  else
    pan

/-- MapView.handleMouseDown: panning starts only when not in add-POI
mode, the zoom is strictly above 1 and the left button (0) is pressed;
then panStart is set to clientPos - pan.  Returns the new
(isPanning, panStart) pair. -/
def handleMouseDown (addPoiMode : Bool) (zoom : ℚ) (pan : Vec2)
    (isPanning : Bool) (panStart : Vec2) (button : ℕ)
    (clientX clientY : ℚ) : Bool × Vec2 :=
  if addPoiMode then
    (isPanning, panStart)
  else if 1 < zoom ∧ button = 0 then
    (true, ⟨clientX - pan.x, clientY - pan.y⟩)
  else
    (isPanning, panStart)

/-- MapView.handleMapClick: a click is considered for point placement
only when not panning and in add-POI mode; the percent coordinates are
computed against the content box rect, and the placement begins
(position returned) only when both are inside [0, 100]; otherwise no
placement occurs. -/
def handleMapClick (isPanning addPoiMode : Bool) (contentRect : Rect)
    (clientX clientY : ℚ) : Option Vec2 :=
  if isPanning then none
  else if !addPoiMode then none
  else
    let x := (clientX - contentRect.left) / contentRect.width * 100
    let y := (clientY - contentRect.top) / contentRect.height * 100
    if 0 ≤ x ∧ x ≤ 100 ∧ 0 ≤ y ∧ y ≤ 100 then some ⟨x, y⟩ else none

/-- C4: a click in placement mode is accepted exactly when the computed
percent coordinates both lie in [0, 100], and an accepted placement
carries exactly the computed coordinates (no clamping); any result
outside the range on either axis yields no placement. -/
theorem c4_placement_bounds (isPanning addPoiMode : Bool)
    (contentRect : Rect) (clientX clientY : ℚ) :
    (handleMapClick isPanning addPoiMode contentRect clientX clientY
        = some ⟨(clientX - contentRect.left) / contentRect.width * 100,
                (clientY - contentRect.top) / contentRect.height * 100⟩
      ↔ (isPanning = false ∧ addPoiMode = true
          ∧ 0 ≤ (clientX - contentRect.left) / contentRect.width * 100
          ∧ (clientX - contentRect.left) / contentRect.width * 100 ≤ 100
          ∧ 0 ≤ (clientY - contentRect.top) / contentRect.height * 100
          ∧ (clientY - contentRect.top) / contentRect.height * 100 ≤ 100))
      ∧ (∀ p : Vec2,
          handleMapClick isPanning addPoiMode contentRect clientX clientY = some p →
            p = ⟨(clientX - contentRect.left) / contentRect.width * 100,
                  (clientY - contentRect.top) / contentRect.height * 100⟩) := by
  cases isPanning with
  | true => simp [handleMapClick]
  | false =>
    cases addPoiMode with
    | true =>
      by_cases h : 0 ≤ (clientX - contentRect.left) / contentRect.width * 100
          ∧ (clientX - contentRect.left) / contentRect.width * 100 ≤ 100
          ∧ 0 ≤ (clientY - contentRect.top) / contentRect.height * 100
          ∧ (clientY - contentRect.top) / contentRect.height * 100 ≤ 100
      · obtain ⟨h1, h2, h3, h4⟩ := h
        simp [handleMapClick, h1, h2, h3, h4]
      · simp [handleMapClick, h]
        intro p _ _ _ _ hp
        exact hp.symm
    | false => simp [handleMapClick]

/-- C5 as stated is refuted here: with zoom 3 on a 100x100 container the
per-axis limit is 100, yet a diagonal drag to the corner yields the pan
vector (100, 100), whose Euclidean magnitude squared 20000 exceeds the
squared limit 10000 — the clamp bounds each axis, not the magnitude. -/
theorem c5_magnitude_counterexample :
    (handleMouseMove true ⟨0, 0⟩ 3 ⟨0, 0⟩ ⟨0, 0, 100, 100⟩ 1000 1000).x ^ 2
        + (handleMouseMove true ⟨0, 0⟩ 3 ⟨0, 0⟩ ⟨0, 0, 100, 100⟩ 1000 1000).y ^ 2
      > (maxPan 3 ⟨0, 0, 100, 100⟩) ^ 2
      ∧ 0 ≤ maxPan 3 ⟨0, 0, 100, 100⟩ := by
  norm_num [handleMouseMove, maxPan, jsMin, jsMax]

/-- C5 amended: the drag-pan handler clamps each axis of the pan vector
to ((zoom - 1) / 2) * max(viewportWidth, viewportHeight) (so the
Euclidean magnitude can reach sqrt 2 times that bound but no axis ever
exceeds it), and panning never starts while zoom ≤ 1. -/
theorem c5_pan_clamp (panStart pan : Vec2) (zoom : ℚ) (rect : Rect)
    (clientX clientY : ℚ) (hz : 1 ≤ zoom) (hw : 0 ≤ rect.width) :
    |(handleMouseMove true panStart zoom pan rect clientX clientY).x|
        ≤ maxPan zoom rect
      ∧ |(handleMouseMove true panStart zoom pan rect clientX clientY).y|
        ≤ maxPan zoom rect
      ∧ ∀ (addPoiMode : Bool) (panStart0 : Vec2) (button : ℕ) (cx cy : ℚ),
          zoom ≤ 1 →
          (handleMouseDown addPoiMode zoom pan false panStart0 button cx cy).1
            = false := by
  have hm : 0 ≤ maxPan zoom rect := by
    unfold maxPan
    rw [jsMax_eq_max]
    have h1 : 0 ≤ (zoom - 1) / 2 := by linarith
    have h2 : (0:ℚ) ≤ max rect.width rect.height := le_trans hw (le_max_left _ _)
    positivity
  have hclamp : ∀ v : ℚ, |jsMax (-(maxPan zoom rect)) (jsMin (maxPan zoom rect) v)|
      ≤ maxPan zoom rect := by
    intro v
    rw [jsMax_eq_max, jsMin_eq_min, abs_le]
    constructor
    · exact le_max_left _ _
    · exact max_le (by linarith) (min_le_left _ _)
  refine ⟨?_, ?_, ?_⟩
  · simpa [handleMouseMove] using hclamp (clientX - panStart.x)
  · simpa [handleMouseMove] using hclamp (clientY - panStart.y)
  · intro addPoiMode panStart0 button cx cy hz1
    unfold handleMouseDown
    have hnot : ¬ (1 < zoom ∧ button = 0) := by
      rintro ⟨h1, -⟩
      linarith
    cases addPoiMode with
    | true => simp
    | false => simp [hnot]

/-- Witness for c5_pan_clamp at zoom 1 on a 100x100 container. -/
theorem c5_pan_clamp_witness :
    (1:ℚ) ≤ 1 ∧ (0:ℚ) ≤ 100 ∧
      |(handleMouseMove true ⟨0, 0⟩ 1 ⟨0, 0⟩ ⟨0, 0, 100, 100⟩ 7 9).x|
        ≤ maxPan 1 ⟨0, 0, 100, 100⟩ := by
  refine ⟨le_refl _, by norm_num, ?_⟩
  exact (c5_pan_clamp ⟨0, 0⟩ ⟨0, 0⟩ 1 ⟨0, 0, 100, 100⟩ 7 9
    (le_refl _) (by norm_num)).1

/-- The zoom / pan / interaction state owned by MapView. -/
structure ViewState where
  zoom : ℚ
  pan : Vec2
  isPanning : Bool
  panStart : Vec2
  addPoiMode : Bool
deriving DecidableEq, Repr

/-- The UI events MapView handles that touch the viewport state: wheel
(with the container rect it measures), mouse down / move / up, the
Escape key, the add-POI toolbar toggle, and the three zoom buttons. -/
inductive UIEvent where
  | wheel (rect : Rect) (clientX clientY deltaY : ℚ)
  | mouseDown (button : ℕ) (clientX clientY : ℚ)
  | mouseMove (rect : Rect) (clientX clientY : ℚ)
  | mouseUp
  | escapeKey
  | togglePoiBtn
  | zoomInBtn
  | zoomOutBtn
  | resetBtn

/-- One synchronous event-handler dispatch of MapView, combining the
individual handlers (handleWheel, handleMouseDown, handleMouseMove,
handleMouseUp, the Escape keydown handler, the add-POI toggle button,
zoomIn, zoomOut, resetZoom). -/
def step (s : ViewState) : UIEvent → ViewState
  | .wheel rect cx cy dy =>
      let r := handleWheel s.zoom s.pan rect cx cy dy
      { s with zoom := r.1, pan := r.2 }
  | .mouseDown b cx cy =>
      let r := handleMouseDown s.addPoiMode s.zoom s.pan s.isPanning s.panStart b cx cy
      { s with isPanning := r.1, panStart := r.2 }
  | .mouseMove rect cx cy =>
      { s with pan := handleMouseMove s.isPanning s.panStart s.zoom s.pan rect cx cy }
  | .mouseUp => { s with isPanning := false }
  | .escapeKey => if s.addPoiMode then { s with addPoiMode := false } else s
  | .togglePoiBtn => { s with addPoiMode := !s.addPoiMode }
  | .zoomInBtn => { s with zoom := jsMin MAX_ZOOM (s.zoom + ZOOM_STEP * 2) }
  | .zoomOutBtn =>
      let z := jsMax MIN_ZOOM (s.zoom - ZOOM_STEP * 2)
      if z = 1 then { s with zoom := z, pan := ⟨0, 0⟩ } else { s with zoom := z }
  | .resetBtn => { s with zoom := 1, pan := ⟨0, 0⟩ }

/-- The initial MapView state: zoom 1, pan (0,0), not panning, add-POI
mode off. -/
def initState : ViewState := ⟨1, ⟨0, 0⟩, false, ⟨0, 0⟩, false⟩

/-- DOM admissibility of an event in a state: button-click handlers
(the add-POI toggle and the zoom buttons) can only fire after the click
completing mouse-up, hence never while a drag is in progress.  Wheel,
mouse and keyboard events are unrestricted. -/
def admissible (s : ViewState) : UIEvent → Prop
  | .togglePoiBtn => s.isPanning = false
  | .zoomInBtn => s.isPanning = false
  | .zoomOutBtn => s.isPanning = false
  | .resetBtn => s.isPanning = false
  | _ => True

/-- States of MapView reachable from the initial state by admissible
event dispatches. -/
inductive Reachable : ViewState → Prop where
  | init : Reachable initState
  | next (s : ViewState) (e : UIEvent) (hs : Reachable s)
      (he : admissible s e) : Reachable (step s e)

/-- A reachable state that is panning at zoom 1: wheel in once at the
container center, press the left button, wheel back out while still
holding the drag. -/
def panningAtMinZoom : ViewState := ⟨1, ⟨0, 0⟩, true, ⟨10, 10⟩, false⟩

theorem panningAtMinZoom_reachable : Reachable panningAtMinZoom := by
  have h1 : step initState (UIEvent.wheel ⟨0, 0, 100, 100⟩ 50 50 (-1))
      = ⟨5/4, ⟨0, 0⟩, false, ⟨0, 0⟩, false⟩ := by
    norm_num [step, initState, handleWheel, jsMin, jsMax, ZOOM_STEP, MAX_ZOOM, MIN_ZOOM]
  have h2 : step (⟨5/4, ⟨0, 0⟩, false, ⟨0, 0⟩, false⟩ : ViewState)
        (UIEvent.mouseDown 0 10 10)
      = ⟨5/4, ⟨0, 0⟩, true, ⟨10, 10⟩, false⟩ := by
    norm_num [step, handleMouseDown]
  have h3 : step (⟨5/4, ⟨0, 0⟩, true, ⟨10, 10⟩, false⟩ : ViewState)
        (UIEvent.wheel ⟨0, 0, 100, 100⟩ 50 50 1)
      = panningAtMinZoom := by
    norm_num [step, panningAtMinZoom, handleWheel, jsMin, jsMax,
      ZOOM_STEP, MAX_ZOOM, MIN_ZOOM]
  have r1 : Reachable (⟨5/4, ⟨0, 0⟩, false, ⟨0, 0⟩, false⟩ : ViewState) := by
    rw [← h1]
    exact Reachable.next _ _ Reachable.init trivial
  have r2 : Reachable (⟨5/4, ⟨0, 0⟩, true, ⟨10, 10⟩, false⟩ : ViewState) := by
    rw [← h2]
    exact Reachable.next _ _ r1 trivial
  rw [← h3]
  exact Reachable.next _ _ r2 trivial

/-- C9 as stated is refuted here: the state panningAtMinZoom is
reachable (wheel in, press the left button at zoom 5/4, wheel back out
mid-drag) and is panning with zoom 1, so panning does occur in a
reachable state with zoom ≤ 1: handleWheel does not end an active pan
when it lowers the zoom to the minimum. -/
theorem c9_panning_at_min_zoom_counterexample :
    Reachable panningAtMinZoom
      ∧ panningAtMinZoom.isPanning = true
      ∧ panningAtMinZoom.zoom ≤ 1 :=
  ⟨panningAtMinZoom_reachable, rfl, le_refl 1⟩

/-- In every reachable state, panning and add-POI (placement) mode are
never simultaneously active. -/
theorem panning_excludes_placement (s : ViewState) (hs : Reachable s) :
    s.isPanning = true → s.addPoiMode = false := by
  induction hs with
  | init => simp [initState]
  | next s e hs ha ih =>
    cases e with
    | wheel rect cx cy dy =>
      simpa only [step] using ih
    | mouseDown b cx cy =>
      simp only [step]
      cases hpoi : s.addPoiMode with
      | true =>
        simp only [handleMouseDown, hpoi, if_pos rfl]
        intro h
        exact absurd hpoi (by simp [ih h])
      | false =>
        intro h
        rfl
    | mouseMove rect cx cy =>
      simpa only [step] using ih
    | mouseUp =>
      simp [step]
    | escapeKey =>
      simp only [step]
      cases hpoi : s.addPoiMode with
      | true => simp
      | false => simp [hpoi]
    | togglePoiBtn =>
      simp only [step]
      intro h
      exact absurd (ih h) (by simp [ha, step] at h ⊢; simp [admissible] at ha; simp [ha] at h)
    | zoomInBtn =>
      simpa only [step] using ih
    | zoomOutBtn =>
      simp only [step]
      by_cases hz : jsMax MIN_ZOOM (s.zoom - ZOOM_STEP * 2) = 1
      · simpa only [if_pos hz] using ih
      · simpa only [if_neg hz] using ih
    | resetBtn =>
      simpa only [step] using ih

/-- C9 amended: in every reachable state panning and placement mode are
mutually exclusive (placement toggles arrive via clicks, hence never
mid-drag); the idle-to-panning transition happens only on pointer-down
with zoom > 1 and placement mode off, and pointer-up always returns to
idle.  The zoom ≤ 1 exclusion of the original claim does not hold: a
wheel zoom-out during an active drag leaves the state panning at
zoom 1. -/
theorem c9_panning_state_machine (s : ViewState) (hs : Reachable s) :
    (s.isPanning = true → s.addPoiMode = false)
      ∧ (∀ (b : ℕ) (cx cy : ℚ),
          (step s (UIEvent.mouseDown b cx cy)).isPanning = true →
            s.isPanning = true ∨ (1 < s.zoom ∧ s.addPoiMode = false))
      ∧ (step s UIEvent.mouseUp).isPanning = false := by
  refine ⟨panning_excludes_placement s hs, ?_, by simp [step]⟩
  intro b cx cy h
  simp only [step] at h
  cases hpoi : s.addPoiMode with
  | true =>
    rw [handleMouseDown, if_pos hpoi] at h
    exact Or.inl h
  | false =>
    rw [handleMouseDown, if_neg (by simp [hpoi])] at h
    by_cases hcond : 1 < s.zoom ∧ b = 0
    · exact Or.inr ⟨hcond.1, rfl⟩
    · rw [if_neg hcond] at h
      exact Or.inl h

/-- Witness for c9_panning_state_machine at the initial state. -/
theorem c9_panning_state_machine_witness :
    Reachable initState ∧ (step initState UIEvent.mouseUp).isPanning = false :=
  ⟨Reachable.init, (c9_panning_state_machine initState Reachable.init).2.2⟩

/-- The role carried by a share record (the values of the ShareModal
permission select: view, edit, admin). -/
inductive ShareRole where
  | view
  | edit
  | admin
deriving DecidableEq, Repr

/-- The derived capability set of section 4.2. -/
structure Capabilities where
  canView : Bool
  canEditMap : Bool
  canDeleteMap : Bool
  canAddPoint : Bool
  canEditPoint : Bool
  canDeletePoint : Bool
  canShare : Bool
  canManageShares : Bool
deriving DecidableEq, Repr

/-- The fields of a map document that the resolver reads. -/
structure MapDoc where
  ownerId : ℕ
  isPublic : Bool
deriving DecidableEq, Repr

/-- All capabilities granted (the owner row of the table). -/
def fullCaps : Capabilities := ⟨true, true, true, true, true, true, true, true⟩

/-- Only canView granted. -/
def viewOnlyCaps : Capabilities := ⟨true, false, false, false, false, false, false, false⟩

/-- No capability granted (no access, distinct from view-only). -/
def noCaps : Capabilities := ⟨false, false, false, false, false, false, false, false⟩

/-- Everything except canDeleteMap and canManageShares (the admin row). -/
def adminCaps : Capabilities := ⟨true, true, false, true, true, true, true, false⟩

/-- The admin row minus canDeletePoint (the edit row). -/
def editCaps : Capabilities := ⟨true, true, false, true, true, false, true, false⟩

/-- Modelled from the spec: the backend capability resolver (the server
code behind mapsApi.maps.getUserPermission) is not among the frontend
sources, so this follows the section 4.2 table: owner gets everything;
an admin share gets everything except deleteMap and manageShares; an
edit share additionally loses deletePoint; a view share gets only
canView; with no share record a public map gives view-only and a
non-public map gives nothing. -/
def resolve (m : MapDoc) (shareRecord : Option ShareRole) (userId : ℕ) :
    Capabilities :=
  if userId = m.ownerId then fullCaps
  else
    match shareRecord with
    | some ShareRole.admin => adminCaps
    | some ShareRole.edit => editCaps
    | some ShareRole.view => viewOnlyCaps
    | none => if m.isPublic then viewOnlyCaps else noCaps

/-- C1: the resolver returns exactly the section 4.2 table: the owner
gets all capabilities regardless of any share record; an admin grantee
gets everything except deleteMap and manageShares; an edit grantee
additionally loses deletePoint; a view grantee gets only canView; no
record on a public map gives only canView; and no record on a
non-public map gives all-false, which differs from view-only. -/
theorem c1_resolve_capability_table (m : MapDoc) (sr : Option ShareRole)
    (u : ℕ) :
    (u = m.ownerId → resolve m sr u = fullCaps)
      ∧ (u ≠ m.ownerId →
          resolve m (some ShareRole.admin) u = adminCaps
            ∧ adminCaps = ⟨fullCaps.canView, fullCaps.canEditMap, false,
                fullCaps.canAddPoint, fullCaps.canEditPoint,
                fullCaps.canDeletePoint, fullCaps.canShare, false⟩)
      ∧ (u ≠ m.ownerId →
          resolve m (some ShareRole.edit) u = editCaps
            ∧ editCaps = ⟨adminCaps.canView, adminCaps.canEditMap,
                adminCaps.canDeleteMap, adminCaps.canAddPoint,
                adminCaps.canEditPoint, false, adminCaps.canShare,
                adminCaps.canManageShares⟩)
      ∧ (u ≠ m.ownerId → resolve m (some ShareRole.view) u = viewOnlyCaps)
      ∧ (u ≠ m.ownerId → m.isPublic = true → resolve m none u = viewOnlyCaps)
      ∧ (u ≠ m.ownerId → m.isPublic = false →
          resolve m none u = noCaps ∧ resolve m none u ≠ viewOnlyCaps) := by
  refine ⟨?_, ?_, ?_, ?_, ?_, ?_⟩
  · intro h
    simp [resolve, h]
  · intro h
    exact ⟨by simp [resolve, h], by simp [adminCaps, fullCaps]⟩
  · intro h
    exact ⟨by simp [resolve, h], by simp [editCaps, adminCaps]⟩
  · intro h
    simp [resolve, h]
  · intro h hp
    simp [resolve, h, hp]
  · intro h hp
    constructor
    · simp [resolve, h, hp]
    · simp [resolve, h, hp, noCaps, viewOnlyCaps]

/-- Witness for c1_resolve_capability_table, covering the owner, the
admin grantee, the public no-record and the private no-record rows. -/
theorem c1_resolve_capability_table_witness :
    resolve ⟨0, false⟩ (some ShareRole.view) 0 = fullCaps
      ∧ resolve ⟨0, false⟩ (some ShareRole.admin) 1 = adminCaps
      ∧ resolve ⟨0, true⟩ none 1 = viewOnlyCaps
      ∧ resolve ⟨0, false⟩ none 1 = noCaps :=
  ⟨(c1_resolve_capability_table ⟨0, false⟩ (some ShareRole.view) 0).1 rfl,
    ((c1_resolve_capability_table ⟨0, false⟩ none 1).2.1 (by decide)).1,
    (c1_resolve_capability_table ⟨0, true⟩ none 1).2.2.2.2.1 (by decide) rfl,
    ((c1_resolve_capability_table ⟨0, false⟩ none 1).2.2.2.2.2 (by decide) rfl).1⟩

/-- ShareModal.js: its props are mapId, mapName, isOwner (defaulting to
true) and onClose; the update-role select and the remove-share button
are rendered exactly when isOwner holds. -/
def shareModalManageControlsShown (isOwner : Bool) : Bool := isOwner

/-- The default the isOwner prop takes when the caller omits it. -/
def shareModalIsOwnerDefault : Bool := true

/-- MapView.js renders ShareModal passing mapId, mapName,
canManageShares, canShare and onClose.  ShareModal accepts none of the
two capability props, so they are dropped, and since MapView passes no
isOwner prop it takes its default.  The rendered manage controls are
therefore independent of the capability arguments. -/
def mapViewShareManageControlsShown (can_manage_shares can_share : Bool) :
    Bool :=
  shareModalManageControlsShown shareModalIsOwnerDefault

/-- C3 is a code bug, evaluated here: a user whose can_manage_shares
capability is false (for example an admin-role grantee, who has
can_share and hence can open the modal) is still shown the update-role
and remove-share controls, because ShareModal ignores the
canManageShares prop MapView passes and falls back to isOwner = true. -/
theorem c3_manage_controls_shown_without_capability :
    mapViewShareManageControlsShown false true = true := rfl

/-- MapView.loadMapData: after every (re)load the visible-layers set is
rebuilt as the ids of the layers now on the map plus the null
(uncategorized) sentinel. -/
def rebuildVisibleLayers (layerIds : List ℕ) : Finset (Option ℕ) :=
  insert none (layerIds.map some).toFinset

/-- MapView.toggleLayerVisibility: flips membership of a layer id (or
of the null sentinel) in the visible-layers set. -/
def toggleLayerVisibility (visibleLayers : Finset (Option ℕ))
    (layerId : Option ℕ) : Finset (Option ℕ) :=
  if layerId ∈ visibleLayers then visibleLayers.erase layerId
  else insert layerId visibleLayers

/-- PoiLayer.isPoiVisible reads poi.layer_id || null, so a missing or
zero layer id both map to the null sentinel. -/
def jsLayerKey (layerId : Option ℕ) : Option ℕ :=
  match layerId with
  | some i => if i = 0 then none else some i
  | none => none

/-- PoiLayer.isPoiVisible: a POI is rendered when its layer key is in
the visible-layers set. -/
def isPoiVisible (layerId : Option ℕ) (visibleLayers : Finset (Option ℕ)) :
    Bool :=
  decide (jsLayerKey layerId ∈ visibleLayers)

/-- C6 as stated is refuted here: with layers 1 and 2 all visible and
the null entry toggled off by the user, deleting layer 2 triggers
loadMapData, which rebuilds the set from scratch; null is then a member
again, so the null entry's membership is not left untouched. -/
theorem c6_null_entry_reset_counterexample :
    none ∉ toggleLayerVisibility (rebuildVisibleLayers [1, 2]) none
      ∧ none ∈ rebuildVisibleLayers [1] := by
  constructor
  · simp [toggleLayerVisibility, rebuildVisibleLayers]
  · simp [rebuildVisibleLayers]

/-- C6 amended: after deleting a layer the visible-layers set is rebuilt
as all remaining layer ids plus null, so the deleted id is absent and
the null entry is present — hence the detached (now uncategorized)
points are visible without user action — but prior visibility toggles,
including a previously hidden null entry, are not preserved. -/
theorem c6_deleted_layer_visibility (remaining : List ℕ) (deleted : ℕ)
    (hd : deleted ∉ remaining) :
    some deleted ∉ rebuildVisibleLayers remaining
      ∧ none ∈ rebuildVisibleLayers remaining
      ∧ ∀ layerId : Option ℕ, jsLayerKey layerId = none →
          isPoiVisible layerId (rebuildVisibleLayers remaining) = true := by
  refine ⟨?_, ?_, ?_⟩
  · simp [rebuildVisibleLayers]
    exact hd
  · simp [rebuildVisibleLayers]
  · intro layerId hk
    simp [isPoiVisible, hk, rebuildVisibleLayers]

/-- Witness for c6_deleted_layer_visibility: layer 2 deleted, layer 1
remaining. -/
theorem c6_deleted_layer_visibility_witness :
    (2 : ℕ) ∉ [1] ∧ some 2 ∉ rebuildVisibleLayers [1] :=
  ⟨by decide, (c6_deleted_layer_visibility [1] 2 (by decide)).1⟩

/-- The fields of a POI record that marker color resolution reads; the
empty string models a missing / falsy value, matching the plain
truthiness tests of the code. -/
structure PoiColors where
  color : String
  display_color : String
  layer_color : String
deriving DecidableEq, Repr

/-- PoiLayer.getPoiColor (identical to PoiList.getColor): the first
truthy of poi.color, poi.display_color, poi.layer_color, else the
default red. -/
def getPoiColor (poi : PoiColors) : String :=
  if poi.color ≠ "" then poi.color
  else if poi.display_color ≠ "" then poi.display_color
  else if poi.layer_color ≠ "" then poi.layer_color
  else "#e74c3c"

/-- C8 as stated is refuted here: a point with no override (color "")
and no layer (layer_color "") but carrying the transitional
display_color "#00ff00" resolves to that legacy value, not to the fixed
default "#e74c3c". -/
theorem c8_legacy_display_color_counterexample :
    getPoiColor ⟨"", "#00ff00", ""⟩ = "#00ff00"
      ∧ getPoiColor ⟨"", "#00ff00", ""⟩ ≠ "#e74c3c" := by
  constructor
  · rfl
  · decide

/-- C8 amended: getPoiColor returns the first present value of the
chain override, legacy display color, layer color, fixed default; an
override wins over the layer color, and a point with no layer, no
override and no legacy display color resolves to the fixed default
(with a legacy value present, that value, not the default, is
returned). -/
theorem c8_color_resolution_chain (c d l : String) :
    (c ≠ "" → getPoiColor ⟨c, d, l⟩ = c)
      ∧ (c = "" → d ≠ "" → getPoiColor ⟨c, d, l⟩ = d)
      ∧ (c = "" → d = "" → l ≠ "" → getPoiColor ⟨c, d, l⟩ = l)
      ∧ (c = "" → d = "" → l = "" → getPoiColor ⟨c, d, l⟩ = "#e74c3c") := by
  refine ⟨?_, ?_, ?_, ?_⟩ <;> intros <;> simp_all [getPoiColor]

/-- Witness for c8_color_resolution_chain: an override beats a layer
color, and an all-absent point gets the default. -/
theorem c8_color_resolution_chain_witness :
    getPoiColor ⟨"#111111", "", "#222222"⟩ = "#111111"
      ∧ getPoiColor ⟨"", "", ""⟩ = "#e74c3c" :=
  ⟨(c8_color_resolution_chain "#111111" "" "#222222").1 (by decide),
    (c8_color_resolution_chain "" "" "").2.2.2 rfl rfl rfl⟩

/-- The PoiModal form state (the revision with layers and the clearable
custom color). -/
structure PoiFormData where
  name : String
  description : String
  layer_id : String
  icon : String
  color : String
deriving DecidableEq, Repr

/-- PoiModal.handleChange on the layer select: the net effect of its
two setFormData calls is layer_id set to the new value and color reset
to the empty string so the layer color takes effect. -/
def handleChangeLayerId (fd : PoiFormData) (v : String) : PoiFormData :=
  { fd with layer_id := v, color := "" }

/-- A layer as the modal sees it. -/
structure LayerRec where
  id : ℕ
  color : String
deriving DecidableEq, Repr

/-- The decimal value of a digit character, none otherwise. -/
def charDigit (c : Char) : Option ℕ :=
  if 48 ≤ c.toNat ∧ c.toNat ≤ 57 then some (c.toNat - 48) else none

/-- Accumulating decimal parse of the remaining characters. -/
def parseDigitsAux : List Char → ℕ → Option ℕ
  | [], acc => some acc
  | c :: cs, acc =>
    match charDigit c with
    | some d => parseDigitsAux cs (acc * 10 + d)
    | none => none

/-- parseInt on the select values the modal produces (canonical decimal
numerals; on those parseInt and this parser agree). -/
def parseIntDec (s : String) : Option ℕ :=
  match s.data with
  | [] => none
  | c :: cs =>
    match charDigit c with
    | some d => parseDigitsAux cs d
    | none => none

/-- PoiModal.getDisplayColor: formData.color when truthy, else the
color of the layer found by parseInt(formData.layer_id) when the select
is nonempty, else the default red. -/
def getDisplayColor (fd : PoiFormData) (layers : List LayerRec) : String :=
  if fd.color ≠ "" then fd.color
  else if fd.layer_id ≠ "" then
    match parseIntDec fd.layer_id with
    | some n =>
      match layers.find? (fun la => la.id == n) with
      | some la => la.color
      | none => "#e74c3c"
    | none => "#e74c3c"
  else "#e74c3c"

/-- C10: an empty-string color override is treated as absent: a point
whose color field is "" resolves through display_color, then layer
color, then "#e74c3c"; and choosing a layer in the edit form resets the
override to "" so getDisplayColor shows the layer color. -/
theorem c10_empty_override_resolution (fd : PoiFormData) (v : String)
    (poi : PoiColors) (layers : List LayerRec) :
    ((handleChangeLayerId fd v).color = ""
        ∧ (handleChangeLayerId fd v).layer_id = v)
      ∧ (poi.color = "" →
          getPoiColor poi
            = if poi.display_color ≠ "" then poi.display_color
              else if poi.layer_color ≠ "" then poi.layer_color
              else "#e74c3c")
      ∧ (∀ (n : ℕ) (la : LayerRec), v ≠ "" → parseIntDec v = some n →
          layers.find? (fun l0 => l0.id == n) = some la →
          getDisplayColor (handleChangeLayerId fd v) layers = la.color) := by
  refine ⟨⟨rfl, rfl⟩, ?_, ?_⟩
  · intro h
    simp [getPoiColor, h]
  · intro n la hv hn hf
    simp [getDisplayColor, handleChangeLayerId, hv, hn, hf]

/-- Witness for c10_empty_override_resolution: picking layer 1 makes
the form show that layer's color even though a custom color was set. -/
theorem c10_empty_override_resolution_witness :
    ("1" : String) ≠ ""
      ∧ parseIntDec "1" = some 1
      ∧ List.find? (fun l0 => l0.id == 1) [(⟨1, "#123456"⟩ : LayerRec)]
          = some ⟨1, "#123456"⟩
      ∧ getDisplayColor
          (handleChangeLayerId ⟨"p", "", "", "", "#abcdef"⟩ "1")
          [⟨1, "#123456"⟩] = "#123456" :=
  ⟨by decide, by decide, by decide,
    (c10_empty_override_resolution ⟨"p", "", "", "", "#abcdef"⟩ "1"
        ⟨"", "", ""⟩ [⟨1, "#123456"⟩]).2.2 1 ⟨1, "#123456"⟩
      (by decide) (by decide) (by decide)⟩

/-- The fields of a POI that the list panel grouping reads. -/
structure PoiItem where
  name : String
  layer_name : Option String
deriving DecidableEq, Repr

/-- The grouping key of PoiList.js: poi.layer_name || "Uncategorized"
(a missing or empty layer name both fall back). -/
def poiGroupKey (p : PoiItem) : String :=
  match p.layer_name with
  | some s => if s = "" then "Uncategorized" else s
  | none => "Uncategorized"

/-- Whether the POI carries a truthy layer name. -/
def hasLayerName (p : PoiItem) : Bool :=
  match p.layer_name with
  | some s => s != ""
  | none => false

/-- One step of the PoiList.js reduce: append the POI to the bucket of
its key, creating the bucket at the end on first occurrence — exactly
the JS object insertion order that Object.entries later preserves. -/
def insertGrouped (acc : List (String × List PoiItem)) (k : String)
    (p : PoiItem) : List (String × List PoiItem) :=
  match acc with
  | [] => [(k, [p])]
  | (k0, ps) :: rest =>
    if k0 = k then (k0, ps ++ [p]) :: rest
    else (k0, ps) :: insertGrouped rest k p

/-- PoiList.js groupedPois: buckets in first-occurrence order. -/
def groupPois (pts : List PoiItem) : List (String × List PoiItem) :=
  pts.foldl (fun acc p => insertGrouped acc (poiGroupKey p) p) []

/-- Insertion into a sorted list under a Bool comparison. -/
def insertByKey (le : PoiItem → PoiItem → Bool) (p : PoiItem) :
    List PoiItem → List PoiItem
  | [] => [p]
  | q :: qs => if le p q then p :: q :: qs else q :: insertByKey le p qs

/-- Insertion sort under a Bool comparison. -/
def sortByKey (le : PoiItem → PoiItem → Bool) (l : List PoiItem) :
    List PoiItem :=
  l.foldr (insertByKey le) []

/-- The sort direction requested by the list panel. -/
inductive SortDir where
  | asc
  | desc
deriving DecidableEq, Repr

/-- Lexical comparison of group keys in the requested direction. -/
def layerNameLE (dir : SortDir) (p q : PoiItem) : Bool :=
  match dir with
  | SortDir.asc => decide (poiGroupKey p ≤ poiGroupKey q)
  | SortDir.desc => decide (poiGroupKey q ≤ poiGroupKey p)

/-- Modelled from the spec: the server-side ordering behind
getPois(mapId, "layer", order) is not among these sources; per the spec
it groups by resolved layer name with "Uncategorized" sorting last
regardless of direction, so the named points come first in the chosen
lexical direction and the uncategorized points after them. -/
def sortPoisByLayer (pts : List PoiItem) (dir : SortDir) : List PoiItem :=
  sortByKey (layerNameLE dir) (pts.filter hasLayerName)
    ++ pts.filter (fun p => !(hasLayerName p))

/-- The bucket keys accumulated in first-occurrence order. -/
def keyFold : List String → List String → List String
  | acc, [] => acc
  | acc, k :: ks => keyFold (if k ∈ acc then acc else acc ++ [k]) ks

theorem insertGrouped_keys (acc : List (String × List PoiItem))
    (k : String) (p : PoiItem) :
    (insertGrouped acc k p).map Prod.fst
      = if k ∈ acc.map Prod.fst then acc.map Prod.fst
        else acc.map Prod.fst ++ [k] := by
  induction acc with
  | nil => simp [insertGrouped]
  | cons hd tl ih =>
    obtain ⟨k0, ps⟩ := hd
    by_cases hk : k0 = k
    · subst hk
      simp [insertGrouped]
    · by_cases hm : k ∈ tl.map Prod.fst
      · simp [insertGrouped, hk, ih, hm, Ne.symm hk]
      · simp [insertGrouped, hk, ih, hm, Ne.symm hk]

theorem foldl_insertGrouped_keys (pts : List PoiItem)
    (acc : List (String × List PoiItem)) :
    (pts.foldl (fun a p => insertGrouped a (poiGroupKey p) p) acc).map Prod.fst
      = keyFold (acc.map Prod.fst) (pts.map poiGroupKey) := by
  induction pts generalizing acc with
  | nil => simp [keyFold]
  | cons p ps ih =>
    simp only [List.foldl_cons, List.map_cons, keyFold]
    rw [ih, insertGrouped_keys]

theorem groupPois_keys (pts : List PoiItem) :
    (groupPois pts).map Prod.fst = keyFold [] (pts.map poiGroupKey) := by
  simpa using foldl_insertGrouped_keys pts []

theorem mem_keyFold (ks : List String) (acc : List String) (x : String) :
    x ∈ keyFold acc ks ↔ x ∈ acc ∨ x ∈ ks := by
  induction ks generalizing acc with
  | nil => simp [keyFold]
  | cons k ks ih =>
    by_cases hk : k ∈ acc
    · simp only [keyFold, if_pos hk, ih]
      constructor
      · rintro (h | h)
        · exact Or.inl h
        · exact Or.inr (List.mem_cons_of_mem _ h)
      · rintro (h | h)
        · exact Or.inl h
        · rcases List.mem_cons.mp h with h | h
          · exact Or.inl (h ▸ hk)
          · exact Or.inr h
    · simp only [keyFold, if_neg hk, ih, List.mem_append, List.mem_singleton,
        List.mem_cons]
      tauto

theorem keyFold_all_mem (ks : List String) (acc : List String)
    (h : ∀ k ∈ ks, k ∈ acc) : keyFold acc ks = acc := by
  induction ks generalizing acc with
  | nil => simp [keyFold]
  | cons k ks ih =>
    have hk : k ∈ acc := h k (List.mem_cons_self _ _)
    simp only [keyFold, if_pos hk]
    exact ih acc fun x hx => h x (List.mem_cons_of_mem _ hx)

theorem keyFold_const (u : String) (ks : List String) (acc : List String)
    (hne : ks ≠ []) (hu : ∀ k ∈ ks, k = u) (hacc : u ∉ acc) :
    keyFold acc ks = acc ++ [u] := by
  cases ks with
  | nil => exact absurd rfl hne
  | cons k ks =>
    have hk : k = u := hu k (List.mem_cons_self _ _)
    subst hk
    simp only [keyFold, if_neg hacc]
    exact keyFold_all_mem ks (acc ++ [k]) fun x hx => by
      rw [hu x (List.mem_cons_of_mem _ hx)]
      simp

theorem keyFold_append (a b : List String) (acc : List String) :
    keyFold acc (a ++ b) = keyFold (keyFold acc a) b := by
  induction a generalizing acc with
  | nil => simp [keyFold]
  | cons k ks ih =>
    simp only [List.cons_append, keyFold]
    exact ih _

theorem mem_insertByKey (le : PoiItem → PoiItem → Bool) (p q : PoiItem)
    (l : List PoiItem) :
    q ∈ insertByKey le p l ↔ q = p ∨ q ∈ l := by
  induction l with
  | nil => simp [insertByKey]
  | cons hd tl ih =>
    by_cases hle : le p hd = true
    · simp [insertByKey, hle, List.mem_cons]
    · simp only [insertByKey, if_neg hle, List.mem_cons, ih]
      tauto

theorem mem_sortByKey (le : PoiItem → PoiItem → Bool) (q : PoiItem)
    (l : List PoiItem) :
    q ∈ sortByKey le l ↔ q ∈ l := by
  induction l with
  | nil => simp [sortByKey]
  | cons hd tl ih =>
    simp only [sortByKey, List.foldr_cons]
    rw [mem_insertByKey]
    simp only [sortByKey] at ih
    rw [ih, List.mem_cons]

/-- C7: for every list of points grouped by the layer key (after the
spec-modelled layer sort, in either direction), the Uncategorized
bucket never occurs before the last position, and it is present as soon
as some point is uncategorized; no layer may itself be named
"Uncategorized". -/
theorem c7_uncategorized_sorts_last (pts : List PoiItem) (dir : SortDir)
    (hno : ∀ p ∈ pts, p.layer_name ≠ some "Uncategorized") :
    "Uncategorized"
        ∉ ((groupPois (sortPoisByLayer pts dir)).map Prod.fst).dropLast
      ∧ ((pts.any fun p => !(hasLayerName p)) = true →
          "Uncategorized" ∈ (groupPois (sortPoisByLayer pts dir)).map Prod.fst) := by
  have hkeyA : ∀ p ∈ sortByKey (layerNameLE dir) (pts.filter hasLayerName),
      poiGroupKey p ≠ "Uncategorized" := by
    intro p hp
    rw [mem_sortByKey] at hp
    have hmem := List.mem_filter.mp hp
    have hname := hmem.2
    have hpts := hmem.1
    cases hl : p.layer_name with
    | none =>
      unfold hasLayerName at hname
      rw [hl] at hname
      simp at hname
    | some s =>
      unfold hasLayerName at hname
      rw [hl] at hname
      simp only [bne_iff_ne, ne_eq] at hname
      unfold poiGroupKey
      rw [hl]
      show (if s = "" then "Uncategorized" else s) ≠ "Uncategorized"
      rw [if_neg hname]
      intro hs
      exact hno p hpts (by rw [hl, hs])
  have hkeyB : ∀ p ∈ pts.filter (fun p => !(hasLayerName p)),
      poiGroupKey p = "Uncategorized" := by
    intro p hp
    have hname := (List.mem_filter.mp hp).2
    simp only [Bool.not_eq_true'] at hname
    cases hl : p.layer_name with
    | none =>
      unfold poiGroupKey
      rw [hl]
    | some s =>
      unfold hasLayerName at hname
      rw [hl] at hname
      simp only [bne_eq_false_iff_eq] at hname
      unfold poiGroupKey
      rw [hl]
      show (if s = "" then "Uncategorized" else s) = "Uncategorized"
      rw [if_pos hname]
  have hkeys : (groupPois (sortPoisByLayer pts dir)).map Prod.fst
      = keyFold
          (keyFold []
            ((sortByKey (layerNameLE dir) (pts.filter hasLayerName)).map poiGroupKey))
          ((pts.filter (fun p => !(hasLayerName p))).map poiGroupKey) := by
    rw [groupPois_keys, sortPoisByLayer, List.map_append, keyFold_append]
  have hbase : "Uncategorized"
      ∉ keyFold []
          ((sortByKey (layerNameLE dir) (pts.filter hasLayerName)).map poiGroupKey) := by
    intro hmem
    rcases (mem_keyFold _ _ _).mp hmem with h | h
    · simp at h
    · rcases List.mem_map.mp h with ⟨p, hp, hkey⟩
      exact hkeyA p hp hkey
  cases hB : (pts.filter (fun p => !(hasLayerName p))).map poiGroupKey with
  | nil =>
    rw [hkeys, hB]
    simp only [keyFold]
    constructor
    · intro hmem
      exact hbase (List.dropLast_sublist _ |>.subset hmem)
    · intro hany
      rcases List.any_eq_true.mp hany with ⟨p, hp, hnp⟩
      have : p ∈ pts.filter (fun p => !(hasLayerName p)) :=
        List.mem_filter.mpr ⟨hp, hnp⟩
      have : poiGroupKey p ∈ (pts.filter (fun p => !(hasLayerName p))).map poiGroupKey :=
        List.mem_map_of_mem _ this
      rw [hB] at this
      simp at this
  | cons b bs =>
    have hconst : keyFold
        (keyFold []
          ((sortByKey (layerNameLE dir) (pts.filter hasLayerName)).map poiGroupKey))
        ((pts.filter (fun p => !(hasLayerName p))).map poiGroupKey)
        = keyFold []
            ((sortByKey (layerNameLE dir) (pts.filter hasLayerName)).map poiGroupKey)
          ++ ["Uncategorized"] := by
      apply keyFold_const
      · rw [hB]
        simp
      · intro k hk
        rcases List.mem_map.mp hk with ⟨p, hp, hkey⟩
        rw [← hkey]
        exact hkeyB p hp
      · exact hbase
    rw [hkeys, hconst]
    constructor
    · rw [List.dropLast_concat]
      exact hbase
    · intro _
      simp

/-- Witness for c7_uncategorized_sorts_last: one categorized and one
uncategorized point, ascending direction. -/
theorem c7_uncategorized_sorts_last_witness :
    (∀ p ∈ [(⟨"a", some "L"⟩ : PoiItem), ⟨"b", none⟩],
        p.layer_name ≠ some "Uncategorized")
      ∧ "Uncategorized"
          ∉ ((groupPois
              (sortPoisByLayer [⟨"a", some "L"⟩, ⟨"b", none⟩] SortDir.asc)).map
                Prod.fst).dropLast :=
  ⟨by decide,
    (c7_uncategorized_sorts_last [⟨"a", some "L"⟩, ⟨"b", none⟩] SortDir.asc
      (by decide)).1⟩

end InteractiveMap
